import Mathlib

/-!
Verification development for the internet-search tool implemented in
src/sgpt/llm_functions/common/internet_search.py.

The Python module is shallowly embedded below.  Pure string processing
(strip, splitlines, split on a separator, join, slicing) is reimplemented
over lists of characters with Python's semantics.  The parsed HTML tree
(the BeautifulSoup object) is modelled as a mutual inductive of nodes and
forests.  External effects (the search HTTP request, the per-page HTTP
fetches, the nondeterministic completion order of the thread pool) are
inputs to the embedded functions, and Python exceptions are explicit
values of an exception type consumed by the embedded except-handlers.
-/

namespace InternetSearch

/-- Characters treated as whitespace by Python str.strip and str.split
(ASCII/Latin-1 range; the exotic Unicode space characters are unused by the
developments below). -/
def isPyWs (c : Char) : Bool :=
  c = ' ' || c = '\t' || c = '\n' || c = '\r' || c = '\x0b' || c = '\x0c' ||
  c = '\x1c' || c = '\x1d' || c = '\x1e' || c = '\x1f' || c = '\x85' || c = '\xa0'

/-- Characters on which Python str.splitlines breaks lines. -/
def isPyLineBreak (c : Char) : Bool :=
  c = '\n' || c = '\r' || c = '\x0b' || c = '\x0c' ||
  c = '\x1c' || c = '\x1d' || c = '\x1e' || c = '\x85' || c = '\u2028' || c = '\u2029'

/-- Python str.strip with no argument: drop leading and trailing whitespace. -/
def pyStrip (s : String) : String :=
  String.mk (((s.data.dropWhile isPyWs).reverse.dropWhile isPyWs).reverse)

/-- Worker for pySplitlines: acc holds the current (reversed) line. -/
def pySplitlinesAux : List Char → List Char → List String
  | [], acc => if acc.isEmpty then [] else [String.mk acc.reverse]
  | '\r' :: '\n' :: rest, acc => String.mk acc.reverse :: pySplitlinesAux rest []
  | c :: rest, acc =>
    if isPyLineBreak c then String.mk acc.reverse :: pySplitlinesAux rest []
    else pySplitlinesAux rest (c :: acc)

/-- Python str.splitlines (without keepends). -/
def pySplitlines (s : String) : List String :=
  pySplitlinesAux s.data []

/-- Worker for pySplitTwoSpaces: split at each leftmost occurrence of two
consecutive space characters, as Python str.split with separator two spaces. -/
def pySplitTwoSpacesAux : List Char → List Char → List String
  | [], acc => [String.mk acc.reverse]
  | ' ' :: ' ' :: rest, acc => String.mk acc.reverse :: pySplitTwoSpacesAux rest []
  | c :: rest, acc => pySplitTwoSpacesAux rest (c :: acc)

/-- Python str.split with a two-space separator string. -/
def pySplitTwoSpaces (s : String) : List String :=
  pySplitTwoSpacesAux s.data []

/-- Worker for pySplitWs. -/
def pySplitWsAux : List Char → List Char → List String
  | [], acc => if acc.isEmpty then [] else [String.mk acc.reverse]
  | c :: rest, acc =>
    if isPyWs c then
      if acc.isEmpty then pySplitWsAux rest []
      else String.mk acc.reverse :: pySplitWsAux rest []
    else pySplitWsAux rest (c :: acc)

/-- Python str.split with no argument: split on runs of whitespace,
producing no empty fragments. -/
def pySplitWs (s : String) : List String :=
  pySplitWsAux s.data []

/-- Python separator.join for the one-space separator. -/
def pyJoinSp : List String → String
  | [] => ""
  | [s] => s
  | s :: rest => s ++ " " ++ pyJoinSp rest

/-- Python string slicing s[:n] (by code point, as Python indexes str). -/
def pyTake (s : String) (n : Nat) : String :=
  String.mk (s.data.take n)

/-- Lines 233-234 of internet_search.py: limit content length, appending an
ellipsis marker when the text exceeds 4096 characters. -/
def truncateContent (s : String) : String :=
  if 4096 < s.length then pyTake s 4096 ++ "..." else s

/-- Lines 228-230 of internet_search.py: strip each line of the text, split
each stripped line at double spaces, strip the fragments, and join the
non-empty fragments with single spaces. -/
def normalizeWhitespace (s : String) : String :=
  let lines := (pySplitlines s).map pyStrip
  let chunks := (lines.map (fun l => (pySplitTwoSpaces l).map pyStrip)).flatten
  pyJoinSp (chunks.filter fun c => c ≠ "")

mutual
/-- A node of the parsed HTML tree produced by BeautifulSoup: an element
with a tag name, attributes and children, or a text node. -/
inductive HtmlNode where
  | elem (tag : String) (attrs : List (String × String)) (children : HtmlForest)
  | text (s : String)
/-- A sequence of sibling HTML nodes (the children of an element, or the
top-level nodes of the document). -/
inductive HtmlForest where
  | nil
  | cons (n : HtmlNode) (rest : HtmlForest)
end

/-- Value of an attribute on an element, if present. -/
def attrValue (attrs : List (String × String)) (key : String) : Option String :=
  (attrs.find? fun p => p.1 == key).map fun p => p.2

/-- The CSS selectors used by _fetch_single_page: a tag-name selector, an
exact attribute-value selector, a class selector and an id selector. -/
inductive Selector where
  | tagSel (name : String)
  | attrSel (key value : String)
  | classSel (value : String)
  | idSel (value : String)

/-- Whether an element with the given tag and attributes matches a selector.
A class selector matches when the value occurs in the whitespace-separated
class list; attribute and id selectors require an exact value. -/
def matchesSelector (sel : Selector) (tag : String) (attrs : List (String × String)) : Bool :=
  match sel with
  | .tagSel t => tag == t
  | .attrSel k v => attrValue attrs k == some v
  | .classSel v => (pySplitWs ((attrValue attrs "class").getD "")).contains v
  | .idSel v => attrValue attrs "id" == some v

mutual
/-- Document-order (pre-order) search for the first element matching a
selector, starting at a node: BeautifulSoup select_one. -/
def selectNode (sel : Selector) : HtmlNode → Option HtmlNode
  | .text _ => none
  | .elem t a c =>
    if matchesSelector sel t a then some (.elem t a c) else selectForest sel c
/-- Document-order search for the first matching element in a forest. -/
def selectForest (sel : Selector) : HtmlForest → Option HtmlNode
  | .nil => none
  | .cons n rest =>
    match selectNode sel n with
    | some e => some e
    | none => selectForest sel rest
end

mutual
/-- Lines 195-196 of internet_search.py: decompose every script and style
element, removing the whole subtree; returns none when the node itself is
a script or style element. -/
def decomposeScriptStyleNode : HtmlNode → Option HtmlNode
  | .text s => some (.text s)
  | .elem t a c =>
    if t == "script" || t == "style" then none
    else some (.elem t a (decomposeScriptStyleForest c))
/-- Removal of all script and style subtrees from a forest. -/
def decomposeScriptStyleForest : HtmlForest → HtmlForest
  | .nil => .nil
  | .cons n rest =>
    match decomposeScriptStyleNode n with
    | some m => .cons m (decomposeScriptStyleForest rest)
    | none => decomposeScriptStyleForest rest
end

mutual
/-- The text-node strings below a node, in document order. -/
def nodeStrings : HtmlNode → List String
  | .text s => [s]
  | .elem _ _ c => forestStrings c
/-- The text-node strings of a forest, in document order. -/
def forestStrings : HtmlForest → List String
  | .nil => []
  | .cons n rest => nodeStrings n ++ forestStrings rest
end

/-- BeautifulSoup get_text with a one-space separator and strip=True:
strip every text node, drop the empty ones, join with single spaces. -/
def joinStrippedTexts (ss : List String) : String :=
  pyJoinSp ((ss.map pyStrip).filter fun s => s ≠ "")

/-- get_text(separator, strip=True) on a single element. -/
def getTextNode (n : HtmlNode) : String :=
  joinStrippedTexts (nodeStrings n)

/-- get_text(separator, strip=True) on the whole soup. -/
def getTextForest (f : HtmlForest) : String :=
  joinStrippedTexts (forestStrings f)

/-- Lines 200-209 of internet_search.py: the ordered content selectors. -/
def contentSelectors : List Selector :=
  [.tagSel "main", .tagSel "article", .attrSel "role" "main", .classSel "content",
   .idSel "content", .classSel "post", .classSel "article", .tagSel "body"]

/-- Lines 211-216 of internet_search.py: try each selector in turn; at the
first selector whose select_one finds an element, take that element's text
and stop.  Yields the empty string when no selector matches any element. -/
def selectLoop (soup : HtmlForest) : List Selector → String
  | [] => ""
  | sel :: rest =>
    match selectForest sel soup with
    | some el => getTextNode el
    | none => selectLoop soup rest

/-- Lines 218-224 of internet_search.py: fallback when the loop produced an
empty text; take the text of the body element, or of the whole soup when
there is no body element. -/
def fallbackBodyText (soup : HtmlForest) : String :=
  match selectForest (.tagSel "body") soup with
  | some b => getTextNode b
  | none => getTextForest soup

/-- Lines 211-224 of internet_search.py: the raw extracted text of a soup
whose script and style subtrees are already decomposed. -/
def extractRawText (soup : HtmlForest) : String :=
  let tc := selectLoop soup contentSelectors
  if tc = "" then fallbackBodyText soup else tc

/-- Lines 191-236 of internet_search.py: the pure part of
_fetch_single_page after the HTTP response: decompose script and style,
extract the content text, normalize whitespace, truncate. -/
def fetchSinglePageText (doc : HtmlForest) : String :=
  let soup := decomposeScriptStyleForest doc
  truncateContent (normalizeWhitespace (extractRawText soup))

/-- The Python exceptions distinguished by the except clauses of execute:
ValueError, requests Timeout, other requests RequestException, and any
other exception with its type name. -/
inductive PyExc where
  | valueError (msg : String)
  | timeoutExc (msg : String)
  | requestExc (msg : String)
  | otherExc (tyName : String) (msg : String)
deriving DecidableEq

/-- The configuration read by _get_search_config and cfg: the two optional
environment variables, and the REQUEST_TIMEOUT setting as the string that
str renders into the timeout message. -/
structure SearchConfig where
  apiKey : Option String
  apiCx : Option String
  requestTimeout : String
deriving DecidableEq

/-- Python truthiness applied to an optional string: None and the empty
string are falsy, as in the credential checks of lines 71-75. -/
def optFalsy : Option String → Bool
  | none => true
  | some s => s == ""

/-- One item of the JSON response's item list; title and link may be
absent (the code reads them with dict.get defaulting to the empty
string). -/
structure ApiItem where
  title : Option String
  link : Option String
deriving DecidableEq

/-- The decoded JSON body of the search response: the optional error
object (carrying its optional message) and the optional item list. -/
structure ApiData where
  errorMessage : Option (Option String)
  items : Option (List ApiItem)
deriving DecidableEq

/-- Outcome of the HTTP request issued by _googleapis, an input to the
model: a timeout, another request failure, a JSON decoding error, or a
decoded body. -/
inductive NetResult where
  | timeout
  | httpError (msg : String)
  | jsonError (msg : String)
  | ok (data : ApiData)
deriving DecidableEq

/-- Lines 100-107 of internet_search.py: build the result list, keeping
the items whose title and link are both present and non-empty. -/
def collectItems : List ApiItem → List (String × String)
  | [] => []
  | it :: rest =>
    let title := it.title.getD ""
    let link := it.link.getD ""
    if title != "" && link != "" then (title, link) :: collectItems rest
    else collectItems rest

/-- Lines 52-123 of internet_search.py: _googleapis.  The two credentials
are checked before the request is issued; afterwards the network outcome
becomes a result list or a raised exception, with the re-raise wrappers of
lines 94-123 applied (an API-reported error is raised inside the try block
and passes through the RequestException re-raise). -/
def _googleapis (config : SearchConfig) (net : NetResult) :
    Except PyExc (List (String × String)) :=
  if optFalsy config.apiKey then
    .error (.valueError "Google Search API key is not configured")
  else if optFalsy config.apiCx then
    .error (.valueError "Google Search API CX is not configured")
  else
    match net with
    | .timeout => .error (.timeoutExc "Google Search API request timeout")
    | .httpError m => .error (.requestExc ("Request failed: " ++ m))
    | .jsonError m => .error (.requestExc ("Failed to parse API response: " ++ m))
    | .ok data =>
      match data.errorMessage with
      | some msg =>
        .error (.requestExc ("Request failed: Google API error: " ++ msg.getD "Unknown API error"))
      | none => .ok (collectItems (data.items.getD []))

/-- Lines 157-166 of internet_search.py: handling of one completed future:
the (title, content) pair, with a failed fetch degraded to an error-string
body.  The per-page outcome function is an input to the model. -/
def processSingle (pageResult : String → String → Except String String)
    (p : String × String) : String × String :=
  match pageResult p.1 p.2 with
  | .ok content => (p.1, content)
  | .error e => (p.1, "Failed to fetch content: " ++ e)

/-- Lines 126-168 of internet_search.py: _fetch_and_process_web_content.
The thread pool is created with min(10, number of results) workers, which
raises ValueError for an empty input; the futures complete in the
nondeterministic order given by completionOrder (a permutation of the
input positions), and results are collected in completion order. -/
def _fetch_and_process_web_content
    (pageResult : String → String → Except String String)
    (completionOrder : List Nat)
    (search_results : List (String × String)) :
    Except PyExc (List (String × String)) :=
  if search_results.isEmpty then
    .error (.valueError "max_workers must be greater than 0")
  else
    .ok (completionOrder.filterMap fun i =>
      (search_results[i]?).map (processSingle pageResult))

/-- The separator line of 50 equal signs built at line 257. -/
def eqSeparatorLine : String := String.mk (List.replicate 50 '=')

/-- Lines 253-258 of internet_search.py: the section string for the i-th
(1-based) result. -/
def sectionFor (i : Nat) (tc : String × String) : String :=
  "=== No." ++ toString i ++ " result ===\n" ++
  "Title: " ++ tc.1 ++ "\n" ++
  "Content: " ++ tc.2 ++ "\n" ++
  eqSeparatorLine ++ "\n"

/-- Lines 251-258 of internet_search.py: the result_parts list, one
section per processed item, numbered from 1. -/
def resultParts (processed_content : List (String × String)) : List String :=
  (processed_content.enumFrom 1).map fun p => sectionFor p.1 p.2

/-- Lines 238-260 of internet_search.py: _convert_to_readable_string. -/
def _convert_to_readable_string (processed_content : List (String × String)) : String :=
  String.intercalate "\n" (resultParts processed_content)

/-- Lines 289-316 of internet_search.py: the except clauses of execute,
in their textual order (ValueError, Timeout, RequestException, Exception),
each producing its prefixed message. -/
def handleException (config : SearchConfig) : PyExc → String
  | .valueError e =>
    "Exit code: 1, Output:\nInternet search tool configuration error: " ++ e ++
    ". Please check your API key and search engine configuration."
  | .timeoutExc e =>
    "Exit code: 1, Output:\nSearch request timed out after " ++ config.requestTimeout ++
    " seconds. Error details: " ++ e ++
    ". Please try a different query or check your network connection."
  | .requestExc e =>
    "Exit code: 1, Output:\nNetwork error during search. Error details: " ++ e ++
    ". Please check your network connection and API configuration."
  | .otherExc ty e =>
    "Exit code: 1, Output:\nUnexpected error during search. Error type: " ++ ty ++
    ", Error details: " ++ e ++
    ". The operation has been terminated to prevent further issues."

/-- Line 279 of internet_search.py: the fixed message for an empty result
list. -/
def noResultsMessage : String :=
  "Exit code: 0, Output:\nNo search results were found for your query."

/-- Lines 262-316 of internet_search.py: execute.  The query and
num_results only feed the external request, so the model's behavior is
determined by the network outcome, the per-page outcomes and the
completion order. -/
def execute (config : SearchConfig) (net : NetResult)
    (pageResult : String → String → Except String String)
    (completionOrder : List Nat) : String :=
  match _googleapis config net with
  | .error e => handleException config e
  | .ok search_results =>
    if search_results.isEmpty then noResultsMessage
    else
      match _fetch_and_process_web_content pageResult completionOrder search_results with
      | .error e => handleException config e
      | .ok processed_content =>
        "Exit code: 0, Output:\n" ++ _convert_to_readable_string processed_content

/-- Two appended strings differ when their leading parts differ at a
position inside both leading parts. -/
theorem append_ne_of_data_ne_at (p q r s : String) (i : Nat)
    (hp : i < p.data.length) (hq : i < q.data.length)
    (hne : p.data[i]? ≠ q.data[i]?) : p ++ r ≠ q ++ s := by
  intro h
  apply hne
  have h2 : (p ++ r).data[i]? = (q ++ s).data[i]? := by rw [h]
  rwa [String.data_append, String.data_append, List.getElem?_append_left hp,
    List.getElem?_append_left hq] at h2

/-- filterMap with a function returning some on every member keeps the
length. -/
theorem length_filterMap_of_isSome {α β : Type} (f : α → Option β) :
    ∀ l : List α, (∀ a ∈ l, (f a).isSome = true) → (l.filterMap f).length = l.length := by
  intro l
  induction l with
  | nil => intro _; rfl
  | cons a t ih =>
    intro h
    obtain ⟨b, hb⟩ := Option.isSome_iff_exists.mp (h a (by simp))
    rw [List.filterMap_cons, hb]
    simp only [List.length_cons]
    rw [ih fun x hx => h x (by simp [hx])]

/-- A 4097-character string, used to exercise the truncation branch. -/
def longContent : String := String.mk (List.replicate 4097 'a')

/-- C3: for every PageContent body, its length is at most 4096 plus the
length of the truncation marker; a body longer than 4096 characters is cut
to its first 4096 characters with the marker appended, and a body of at
most 4096 characters is returned unchanged. -/
theorem truncation_cap_and_marker (s : String) :
    (truncateContent s).length ≤ 4096 + ("..." : String).length ∧
    (4096 < s.length → truncateContent s = pyTake s 4096 ++ "...") ∧
    (s.length ≤ 4096 → truncateContent s = s) := by
  refine ⟨?_, fun h => by rw [truncateContent, if_pos h],
    fun h => by rw [truncateContent, if_neg (by omega)]⟩
  rw [truncateContent]
  split
  · rw [String.length_append]
    have h1 : (pyTake s 4096).length ≤ 4096 := by
      show (s.data.take 4096).length ≤ 4096
      exact List.length_take_le 4096 s.data
    have h2 : ("..." : String).length = 3 := rfl
    omega
  · next h =>
    have h2 : ("..." : String).length = 3 := rfl
    omega

/-- Witness for C3: the truncation branch at a 4097-character body, and
the identity branch at a short body. -/
theorem truncation_cap_and_marker_witness :
    truncateContent longContent = pyTake longContent 4096 ++ "..." ∧
    truncateContent "abc" = "abc" :=
  ⟨(truncation_cap_and_marker longContent).2.1
      (by rw [longContent, String.length_mk, List.length_replicate]; omega),
   (truncation_cap_and_marker "abc").2.2 (by decide)⟩

/-- C5: an unset API key (or, with the key present, an unset CX) makes
_googleapis raise the configuration ValueError whatever the network would
have answered, and execute maps it to the configuration-error message
naming the missing credential. -/
theorem missing_credential_fails_before_network (config : SearchConfig) :
    (config.apiKey = none →
      ∀ net pageResult completionOrder,
        _googleapis config net =
          .error (.valueError "Google Search API key is not configured") ∧
        execute config net pageResult completionOrder =
          "Exit code: 1, Output:\nInternet search tool configuration error: Google Search API key is not configured. Please check your API key and search engine configuration.") ∧
    (optFalsy config.apiKey = false → config.apiCx = none →
      ∀ net pageResult completionOrder,
        _googleapis config net =
          .error (.valueError "Google Search API CX is not configured") ∧
        execute config net pageResult completionOrder =
          "Exit code: 1, Output:\nInternet search tool configuration error: Google Search API CX is not configured. Please check your API key and search engine configuration.") := by
  constructor
  · intro hk net pageResult completionOrder
    have hfalsy : optFalsy config.apiKey = true := by rw [hk]; rfl
    have hg : _googleapis config net =
        .error (.valueError "Google Search API key is not configured") := by
      rw [_googleapis.eq_def, if_pos hfalsy]
    refine ⟨hg, ?_⟩
    rw [execute, hg]
    rfl
  · intro hk hc net pageResult completionOrder
    have hfalsy : optFalsy config.apiCx = true := by rw [hc]; rfl
    have hg : _googleapis config net =
        .error (.valueError "Google Search API CX is not configured") := by
      rw [_googleapis.eq_def, if_neg (by simp [hk]), if_pos hfalsy]
    refine ⟨hg, ?_⟩
    rw [execute, hg]
    rfl

/-- Witness for C5: a configuration with no API key, and one with a key
but no CX. -/
theorem missing_credential_fails_before_network_witness :
    execute ⟨none, some "cx0", "10"⟩ (.ok ⟨none, some []⟩) (fun _ _ => .ok "c") [] =
      "Exit code: 1, Output:\nInternet search tool configuration error: Google Search API key is not configured. Please check your API key and search engine configuration." ∧
    execute ⟨some "k0", none, "10"⟩ (.ok ⟨none, some []⟩) (fun _ _ => .ok "c") [] =
      "Exit code: 1, Output:\nInternet search tool configuration error: Google Search API CX is not configured. Please check your API key and search engine configuration." :=
  ⟨((missing_credential_fails_before_network ⟨none, some "cx0", "10"⟩).1 rfl
      (.ok ⟨none, some []⟩) (fun _ _ => .ok "c") []).2,
   ((missing_credential_fails_before_network ⟨some "k0", none, "10"⟩).2 (by decide) rfl
      (.ok ⟨none, some []⟩) (fun _ _ => .ok "c") []).2⟩

/-- C6: a response with no error object and zero items makes _googleapis
return the empty result list (not an error), and execute short-circuits to
the fixed no-results message, independent of the page fetches. -/
theorem zero_items_short_circuits (config : SearchConfig) (data : ApiData)
    (hk : optFalsy config.apiKey = false) (hc : optFalsy config.apiCx = false)
    (herr : data.errorMessage = none) (hitems : data.items.getD [] = []) :
    _googleapis config (.ok data) = .ok [] ∧
    ∀ pageResult completionOrder,
      execute config (.ok data) pageResult completionOrder = noResultsMessage := by
  have hg : _googleapis config (.ok data) = .ok [] := by
    rw [_googleapis.eq_def, if_neg (by simp [hk]), if_neg (by simp [hc])]
    simp only [herr, hitems]
    rfl
  refine ⟨hg, fun pageResult completionOrder => ?_⟩
  rw [execute, hg]
  rfl

/-- Witness for C6: a fully configured client receiving a response with
no items. -/
theorem zero_items_short_circuits_witness :
    execute ⟨some "k0", some "cx0", "10"⟩ (.ok ⟨none, none⟩)
        (fun _ _ => .error "unreachable") [0] = noResultsMessage :=
  (zero_items_short_circuits ⟨some "k0", some "cx0", "10"⟩ ⟨none, none⟩
      rfl rfl rfl rfl).2 (fun _ _ => .error "unreachable") [0]

/-- C8: the result list built by _googleapis keeps exactly the items with
a non-empty title and a non-empty link, in their original order; items
missing either field are skipped. -/
theorem search_result_item_filtering (items : List ApiItem) :
    collectItems items =
      (items.filter fun it => (it.title.getD "" != "") && (it.link.getD "" != "")).map
        fun it => (it.title.getD "", it.link.getD "") := by
  induction items with
  | nil => rfl
  | cons it rest ih =>
    simp only [collectItems, List.filter_cons]
    by_cases h : ((it.title.getD "" != "") && (it.link.getD "" != "")) = true
    · simp only [h, if_pos, List.map_cons, ih]
    · rw [if_neg h, if_neg h, ih]

/-- C10: an empty input makes the fetch stage raise the worker-pool
ValueError of ThreadPoolExecutor at min(10, 0) = 0 workers; any non-empty
input succeeds; and execute short-circuits to the no-results message when
the search returned the empty list, so the fetch stage never receives an
empty input. -/
theorem fetch_stage_nonempty_precondition
    (pageResult : String → String → Except String String) (completionOrder : List Nat) :
    _fetch_and_process_web_content pageResult completionOrder [] =
      .error (.valueError "max_workers must be greater than 0") ∧
    (∀ search_results : List (String × String), search_results ≠ [] →
      (_fetch_and_process_web_content pageResult completionOrder search_results).isOk = true) ∧
    (∀ config net, _googleapis config net = .ok [] →
      execute config net pageResult completionOrder = noResultsMessage) := by
  refine ⟨rfl, ?_, ?_⟩
  · intro search_results hne
    rw [_fetch_and_process_web_content, if_neg (by simp [hne])]
    rfl
  · intro config net hg
    simp only [execute.eq_def, hg]
    rfl

/-- Witness for C10: the fetch stage succeeds on a one-element input, and
execute short-circuits on an empty search result. -/
theorem fetch_stage_nonempty_precondition_witness :
    (_fetch_and_process_web_content (fun _ _ => .ok "c") [0] [("t", "u")]).isOk = true ∧
    execute ⟨some "k1", some "cx1", "10"⟩ (.ok ⟨none, some []⟩)
        (fun _ _ => .ok "c") [0] = noResultsMessage :=
  ⟨(fetch_stage_nonempty_precondition (fun _ _ => .ok "c") [0]).2.1 [("t", "u")] (by decide),
   (fetch_stage_nonempty_precondition (fun _ _ => .ok "c") [0]).2.2
     ⟨some "k1", some "cx1", "10"⟩ (.ok ⟨none, some []⟩) rfl⟩

/-- The fixed head of the configuration-error message of execute. -/
def cfgErrHead : String :=
  "Exit code: 1, Output:\nInternet search tool configuration error: "

/-- The fixed head of the timeout message of execute. -/
def timeoutHead : String :=
  "Exit code: 1, Output:\nSearch request timed out after "

/-- The fixed head of the network-error message of execute. -/
def netErrHead : String :=
  "Exit code: 1, Output:\nNetwork error during search. Error details: "

/-- The fixed head of the catch-all message of execute. -/
def unexpectedHead : String :=
  "Exit code: 1, Output:\nUnexpected error during search. Error type: "

/-- Each except clause of execute yields a message extending the failure
status marker. -/
theorem handleException_starts_exit1 (config : SearchConfig) (e : PyExc) :
    ∃ r, handleException config e = "Exit code: 1" ++ r := by
  cases e with
  | valueError m =>
    refine ⟨", Output:\nInternet search tool configuration error: " ++
      (m ++ ". Please check your API key and search engine configuration."), ?_⟩
    show cfgErrHead ++ m ++ ". Please check your API key and search engine configuration." = _
    rw [show cfgErrHead = "Exit code: 1" ++
      ", Output:\nInternet search tool configuration error: " from rfl]
    simp only [String.append_assoc]
  | timeoutExc m =>
    refine ⟨", Output:\nSearch request timed out after " ++ (config.requestTimeout ++
      (" seconds. Error details: " ++
        (m ++ ". Please try a different query or check your network connection."))), ?_⟩
    show timeoutHead ++ config.requestTimeout ++ " seconds. Error details: " ++ m ++
      ". Please try a different query or check your network connection." = _
    rw [show timeoutHead = "Exit code: 1" ++
      ", Output:\nSearch request timed out after " from rfl]
    simp only [String.append_assoc]
  | requestExc m =>
    refine ⟨", Output:\nNetwork error during search. Error details: " ++
      (m ++ ". Please check your network connection and API configuration."), ?_⟩
    show netErrHead ++ m ++ ". Please check your network connection and API configuration." = _
    rw [show netErrHead = "Exit code: 1" ++
      ", Output:\nNetwork error during search. Error details: " from rfl]
    simp only [String.append_assoc]
  | otherExc ty m =>
    refine ⟨", Output:\nUnexpected error during search. Error type: " ++ (ty ++
      (", Error details: " ++
        (m ++ ". The operation has been terminated to prevent further issues."))), ?_⟩
    show unexpectedHead ++ ty ++ ", Error details: " ++ m ++
      ". The operation has been terminated to prevent further issues." = _
    rw [show unexpectedHead = "Exit code: 1" ++
      ", Output:\nUnexpected error during search. Error type: " from rfl]
    simp only [String.append_assoc]

/-- Both success outputs of execute extend the success status marker. -/
theorem execute_ok_starts_exit0 (config : SearchConfig) (net : NetResult)
    (pageResult : String → String → Except String String) (completionOrder : List Nat)
    (search_results : List (String × String))
    (hg : _googleapis config net = .ok search_results) :
    ∃ r, execute config net pageResult completionOrder = "Exit code: 0" ++ r := by
  simp only [execute.eq_def, hg]
  by_cases hempty : search_results.isEmpty = true
  · rw [if_pos hempty]
    exact ⟨", Output:\nNo search results were found for your query.", rfl⟩
  · rw [if_neg hempty]
    rw [_fetch_and_process_web_content, if_neg hempty]
    refine ⟨", Output:\n" ++ _convert_to_readable_string
      (completionOrder.filterMap fun i =>
        (search_results[i]?).map (processSingle pageResult)), ?_⟩
    rw [show ("Exit code: 0, Output:\n" : String) = "Exit code: 0" ++ ", Output:\n" from rfl]
    simp only [String.append_assoc]

/-- Normal form of the configuration-error clause. -/
theorem handle_valueError_eq (config : SearchConfig) (m : String) :
    handleException config (.valueError m) =
      cfgErrHead ++ (m ++ ". Please check your API key and search engine configuration.") := by
  show cfgErrHead ++ m ++ ". Please check your API key and search engine configuration." = _
  rw [String.append_assoc]

/-- Normal form of the timeout clause. -/
theorem handle_timeoutExc_eq (config : SearchConfig) (m : String) :
    handleException config (.timeoutExc m) =
      timeoutHead ++ (config.requestTimeout ++ (" seconds. Error details: " ++
        (m ++ ". Please try a different query or check your network connection."))) := by
  show timeoutHead ++ config.requestTimeout ++ " seconds. Error details: " ++ m ++
    ". Please try a different query or check your network connection." = _
  simp only [String.append_assoc]

/-- Normal form of the network-error clause. -/
theorem handle_requestExc_eq (config : SearchConfig) (m : String) :
    handleException config (.requestExc m) =
      netErrHead ++ (m ++ ". Please check your network connection and API configuration.") := by
  show netErrHead ++ m ++ ". Please check your network connection and API configuration." = _
  rw [String.append_assoc]

/-- Normal form of the catch-all clause. -/
theorem handle_otherExc_eq (config : SearchConfig) (ty m : String) :
    handleException config (.otherExc ty m) =
      unexpectedHead ++ (ty ++ (", Error details: " ++
        (m ++ ". The operation has been terminated to prevent further issues."))) := by
  show unexpectedHead ++ ty ++ ", Error details: " ++ m ++
    ". The operation has been terminated to prevent further issues." = _
  simp only [String.append_assoc]

/-- C9: execute is total at its boundary: every run produces a string
extending the status marker, and the final except clause converts any
remaining exception into the unexpected-error message carrying the
exception's type name. -/
theorem execute_total_and_catch_all :
    (∀ (config : SearchConfig) (net : NetResult)
        (pageResult : String → String → Except String String)
        (completionOrder : List Nat),
      ∃ r, execute config net pageResult completionOrder = "Exit code: " ++ r) ∧
    (∀ (config : SearchConfig) (ty msg : String),
      handleException config (.otherExc ty msg) =
        unexpectedHead ++ ty ++ ", Error details: " ++ msg ++
        ". The operation has been terminated to prevent further issues.") := by
  constructor
  · intro config net pageResult completionOrder
    cases hg : _googleapis config net with
    | error e =>
      obtain ⟨r, hr⟩ := handleException_starts_exit1 config e
      refine ⟨"1" ++ r, ?_⟩
      have hx : execute config net pageResult completionOrder = handleException config e := by
        simp only [execute.eq_def, hg]
      rw [hx, hr, show ("Exit code: 1" : String) = "Exit code: " ++ "1" from rfl,
        String.append_assoc]
    | ok search_results =>
      obtain ⟨r, hr⟩ := execute_ok_starts_exit0 config net pageResult completionOrder
        search_results hg
      refine ⟨"0" ++ r, ?_⟩
      rw [hr, show ("Exit code: 0" : String) = "Exit code: " ++ "0" from rfl,
        String.append_assoc]
  · intro config ty msg
    rfl

/-- C7: execute's output begins with the success marker when the search
pipeline succeeded (including the zero-result case), every top-level
failure is routed through an except clause whose message begins with the
failure marker, and the four except clauses produce pairwise distinct
messages with distinct fixed heads. -/
theorem exit_code_markers_and_distinct_errors (config : SearchConfig) (net : NetResult)
    (pageResult : String → String → Except String String) (completionOrder : List Nat) :
    ((_googleapis config net).isOk = true →
      ∃ r, execute config net pageResult completionOrder = "Exit code: 0" ++ r) ∧
    (∀ e, _googleapis config net = .error e →
      execute config net pageResult completionOrder = handleException config e) ∧
    (∀ e, ∃ r, handleException config e = "Exit code: 1" ++ r) ∧
    (∀ m, ∃ r, handleException config (.valueError m) = cfgErrHead ++ r) ∧
    (∀ m, ∃ r, handleException config (.timeoutExc m) = timeoutHead ++ r) ∧
    (∀ m, ∃ r, handleException config (.requestExc m) = netErrHead ++ r) ∧
    (∀ ty m, ∃ r, handleException config (.otherExc ty m) = unexpectedHead ++ r) ∧
    (∀ m m', handleException config (.valueError m) ≠
      handleException config (.timeoutExc m')) ∧
    (∀ m m', handleException config (.valueError m) ≠
      handleException config (.requestExc m')) ∧
    (∀ m ty m', handleException config (.valueError m) ≠
      handleException config (.otherExc ty m')) ∧
    (∀ m m', handleException config (.timeoutExc m) ≠
      handleException config (.requestExc m')) ∧
    (∀ m ty m', handleException config (.timeoutExc m) ≠
      handleException config (.otherExc ty m')) ∧
    (∀ m ty m', handleException config (.requestExc m) ≠
      handleException config (.otherExc ty m')) := by
  refine ⟨?_, ?_, handleException_starts_exit1 config,
    fun m => ⟨_, handle_valueError_eq config m⟩,
    fun m => ⟨_, handle_timeoutExc_eq config m⟩,
    fun m => ⟨_, handle_requestExc_eq config m⟩,
    fun ty m => ⟨_, handle_otherExc_eq config ty m⟩, ?_, ?_, ?_, ?_, ?_, ?_⟩
  · intro hok
    cases hg : _googleapis config net with
    | error e => rw [hg] at hok; exact Bool.noConfusion hok
    | ok search_results =>
      exact execute_ok_starts_exit0 config net pageResult completionOrder search_results hg
  · intro e hg
    simp only [execute.eq_def, hg]
  · intro m m'
    rw [handle_valueError_eq, handle_timeoutExc_eq]
    exact append_ne_of_data_ne_at _ _ _ _ 22 (by decide) (by decide) (by decide)
  · intro m m'
    rw [handle_valueError_eq, handle_requestExc_eq]
    exact append_ne_of_data_ne_at _ _ _ _ 22 (by decide) (by decide) (by decide)
  · intro m ty m'
    rw [handle_valueError_eq, handle_otherExc_eq]
    exact append_ne_of_data_ne_at _ _ _ _ 22 (by decide) (by decide) (by decide)
  · intro m m'
    rw [handle_timeoutExc_eq, handle_requestExc_eq]
    exact append_ne_of_data_ne_at _ _ _ _ 22 (by decide) (by decide) (by decide)
  · intro m ty m'
    rw [handle_timeoutExc_eq, handle_otherExc_eq]
    exact append_ne_of_data_ne_at _ _ _ _ 22 (by decide) (by decide) (by decide)
  · intro m ty m'
    rw [handle_requestExc_eq, handle_otherExc_eq]
    exact append_ne_of_data_ne_at _ _ _ _ 22 (by decide) (by decide) (by decide)

/-- Witness for C7: the success-marker clause discharged at a successful
one-item search, and the routing clause at a timed-out search. -/
theorem exit_code_markers_and_distinct_errors_witness :
    (∃ r, execute ⟨some "k2", some "cx2", "10"⟩
        (.ok ⟨none, some [⟨some "t", some "u"⟩]⟩) (fun _ _ => .ok "c") [0] =
      "Exit code: 0" ++ r) ∧
    execute ⟨some "k2", some "cx2", "10"⟩ .timeout (fun _ _ => .ok "c") [0] =
      handleException ⟨some "k2", some "cx2", "10"⟩
        (.timeoutExc "Google Search API request timeout") :=
  ⟨(exit_code_markers_and_distinct_errors ⟨some "k2", some "cx2", "10"⟩
      (.ok ⟨none, some [⟨some "t", some "u"⟩]⟩) (fun _ _ => .ok "c") [0]).1 (by decide),
   (exit_code_markers_and_distinct_errors ⟨some "k2", some "cx2", "10"⟩
      .timeout (fun _ _ => .ok "c") [0]).2.1
      (.timeoutExc "Google Search API request timeout") rfl⟩

/-- C1: with a non-empty input and a completion order that is a
permutation of the input positions, the fetch stage returns exactly one
(title, content) pair per search result (failures having been degraded to
error-string bodies by processSingle), and the rendered report has exactly
one section per input, headed 1..N in order. -/
theorem fetch_cardinality_and_section_headers
    (pageResult : String → String → Except String String)
    (completionOrder : List Nat) (search_results : List (String × String))
    (hne : search_results ≠ [])
    (hperm : completionOrder.Perm (List.range search_results.length)) :
    ∃ pc, _fetch_and_process_web_content pageResult completionOrder search_results =
        .ok pc ∧
      pc.length = search_results.length ∧
      (resultParts pc).length = search_results.length ∧
      ∀ i : Nat, i < search_results.length →
        ∃ rest, (resultParts pc)[i]? =
          some (("=== No." ++ toString (i + 1) ++ " result ===\n") ++ rest) := by
  have hfetch : _fetch_and_process_web_content pageResult completionOrder search_results =
      .ok (completionOrder.filterMap fun j =>
        (search_results[j]?).map (processSingle pageResult)) := by
    rw [_fetch_and_process_web_content, if_neg (by simp [hne])]
  refine ⟨_, hfetch, ?_, ?_, ?_⟩
  case refine_1 =>
    rw [length_filterMap_of_isSome]
    · exact hperm.length_eq.trans (List.length_range _)
    · intro j hj
      have hjlt : j < search_results.length := by
        have hmem := hperm.mem_iff.mp hj
        simpa [List.mem_range] using hmem
      simp [List.getElem?_eq_getElem hjlt]
  case refine_2 =>
    rw [resultParts, List.length_map, List.enumFrom_length]
    rw [length_filterMap_of_isSome]
    · exact hperm.length_eq.trans (List.length_range _)
    · intro j hj
      have hjlt : j < search_results.length := by
        have hmem := hperm.mem_iff.mp hj
        simpa [List.mem_range] using hmem
      simp [List.getElem?_eq_getElem hjlt]
  case refine_3 =>
    intro i hi
    have hlen : (completionOrder.filterMap fun j =>
        (search_results[j]?).map (processSingle pageResult)).length =
        search_results.length := by
      rw [length_filterMap_of_isSome]
      · exact hperm.length_eq.trans (List.length_range _)
      · intro j hj
        have hjlt : j < search_results.length := by
          have hmem := hperm.mem_iff.mp hj
          simpa [List.mem_range] using hmem
        simp [List.getElem?_eq_getElem hjlt]
    have hi' : i < (completionOrder.filterMap fun j =>
        (search_results[j]?).map (processSingle pageResult)).length := by
      rw [hlen]; exact hi
    refine ⟨"Title: " ++ ((completionOrder.filterMap fun j =>
        (search_results[j]?).map (processSingle pageResult))[i].1 ++
      ("\n" ++ ("Content: " ++ ((completionOrder.filterMap fun j =>
        (search_results[j]?).map (processSingle pageResult))[i].2 ++
      ("\n" ++ (eqSeparatorLine ++ "\n")))))), ?_⟩
    rw [resultParts, List.getElem?_map, List.getElem?_enumFrom,
      List.getElem?_eq_getElem hi']
    simp only [Option.map_some']
    congr 1
    rw [Nat.add_comm 1 i]
    simp only [sectionFor, String.append_assoc]

/-- Witness for C1: two search results fetched with completion order
reversed. -/
theorem fetch_cardinality_and_section_headers_witness :
    ∃ pc, _fetch_and_process_web_content (fun _ _ => .ok "c") [1, 0]
        [("t1", "u1"), ("t2", "u2")] = .ok pc ∧
      pc.length = [("t1", "u1"), ("t2", "u2")].length ∧
      (resultParts pc).length = [("t1", "u1"), ("t2", "u2")].length ∧
      ∀ i : Nat, i < [("t1", "u1"), ("t2", "u2")].length →
        ∃ rest, (resultParts pc)[i]? =
          some (("=== No." ++ toString (i + 1) ++ " result ===\n") ++ rest) :=
  fetch_cardinality_and_section_headers (fun _ _ => .ok "c") [1, 0]
    [("t1", "u1"), ("t2", "u2")] (by decide) (by decide)

/-- The selector loop returns the text of the first selector, in list
order, for which select_one finds an element. -/
theorem selectLoop_eq_findSome (soup : HtmlForest) (sels : List Selector) :
    selectLoop soup sels =
      match sels.findSome? (fun sel => selectForest sel soup) with
      | some el => getTextNode el
      | none => "" := by
  induction sels with
  | nil => rfl
  | cons sel rest ih =>
    simp only [selectLoop, List.findSome?_cons]
    cases h : selectForest sel soup with
    | some el => rfl
    | none => exact ih

/-- C2 (amended): extraction stops at the first selector that matches an
element at all, regardless of that element's text; only when the matched
element's text is empty, or no selector matches any element, does it fall
back to the body element's text (or the whole soup's text when there is
no body element). -/
theorem extraction_first_matching_selector (doc : HtmlForest) :
    fetchSinglePageText doc =
      truncateContent (normalizeWhitespace
        (match contentSelectors.findSome?
            (fun sel => selectForest sel (decomposeScriptStyleForest doc)) with
         | some el =>
           if getTextNode el = "" then fallbackBodyText (decomposeScriptStyleForest doc)
           else getTextNode el
         | none => fallbackBodyText (decomposeScriptStyleForest doc))) := by
  show truncateContent (normalizeWhitespace
    (extractRawText (decomposeScriptStyleForest doc))) = _
  congr 1
  congr 1
  show (let tc := selectLoop (decomposeScriptStyleForest doc) contentSelectors
    if tc = "" then fallbackBodyText (decomposeScriptStyleForest doc) else tc) = _
  rw [selectLoop_eq_findSome]
  cases h : contentSelectors.findSome?
      (fun sel => selectForest sel (decomposeScriptStyleForest doc)) with
  | none => simp
  | some el =>
    by_cases he : getTextNode el = ""
    · simp [he]
    · simp [he]

/-- The selector loop as the specification words it, for comparison with
selectLoop: try each selector in turn and take the first whose matched
element yields non-empty text. -/
def selectLoopFirstText (soup : HtmlForest) : List Selector → String
  | [] => ""
  | sel :: rest =>
    match selectForest sel soup with
    | some el =>
      if getTextNode el ≠ "" then getTextNode el else selectLoopFirstText soup rest
    | none => selectLoopFirstText soup rest

/-- The page-text extraction as the specification words it: the first
selector yielding non-empty text wins, and the body fallback applies only
when no selector yields text. -/
def specFirstTextPageText (doc : HtmlForest) : String :=
  let soup := decomposeScriptStyleForest doc
  let tc := selectLoopFirstText soup contentSelectors
  truncateContent (normalizeWhitespace (if tc = "" then fallbackBodyText soup else tc))

/-- A document whose main element is empty while a later article element
has text, with further text elsewhere in the body. -/
def emptyMainDoc : HtmlForest :=
  .cons (.elem "html" [] (.cons (.elem "body" []
    (.cons (.elem "main" [] .nil)
      (.cons (.elem "article" [] (.cons (.text "A") .nil))
        (.cons (.elem "p" [] (.cons (.text "B") .nil)) .nil)))) .nil)) .nil

/-- Counterexample to C2 as stated: on emptyMainDoc the code breaks at the
matching but empty main element and falls back to the whole body text,
instead of selecting the article, the first selector whose element yields
non-empty text. -/
theorem extraction_first_matching_selector_counterexample :
    fetchSinglePageText emptyMainDoc = "A B" ∧
    specFirstTextPageText emptyMainDoc = "A" ∧
    fetchSinglePageText emptyMainDoc ≠ specFirstTextPageText emptyMainDoc :=
  ⟨by decide, by decide, by decide⟩

mutual
/-- No script or style element anywhere below (or at) a node. -/
def nodeScriptStyleFree : HtmlNode → Bool
  | .text _ => true
  | .elem t _ c => !(t == "script" || t == "style") && forestScriptStyleFree c
/-- No script or style element anywhere in a forest. -/
def forestScriptStyleFree : HtmlForest → Bool
  | .nil => true
  | .cons n rest => nodeScriptStyleFree n && forestScriptStyleFree rest
end

mutual
/-- A node surviving decomposition contains no script or style element. -/
theorem decomposeNode_scriptStyleFree :
    ∀ n : HtmlNode, ∀ m, decomposeScriptStyleNode n = some m →
      nodeScriptStyleFree m = true
  | .text s, m, h => by
    simp only [decomposeScriptStyleNode] at h
    cases Option.some.inj h
    rfl
  | .elem t a c, m, h => by
    simp only [decomposeScriptStyleNode] at h
    cases hb : (t == "script" || t == "style") with
    | true => rw [if_pos hb] at h; cases h
    | false =>
      rw [if_neg (by simp [hb])] at h
      cases Option.some.inj h
      simp only [nodeScriptStyleFree, hb, decomposeForest_scriptStyleFree c]
      rfl
/-- The decomposed forest contains no script or style element. -/
theorem decomposeForest_scriptStyleFree :
    ∀ f : HtmlForest, forestScriptStyleFree (decomposeScriptStyleForest f) = true
  | .nil => rfl
  | .cons n rest => by
    simp only [decomposeScriptStyleForest]
    cases h : decomposeScriptStyleNode n with
    | none => exact decomposeForest_scriptStyleFree rest
    | some m =>
      simp only [forestScriptStyleFree]
      rw [decomposeNode_scriptStyleFree n m h, decomposeForest_scriptStyleFree rest]
      rfl
end

mutual
/-- Decomposition does not change a node that is already free of script
and style elements. -/
theorem decomposeNode_of_free :
    ∀ n : HtmlNode, nodeScriptStyleFree n = true → decomposeScriptStyleNode n = some n
  | .text s, _ => rfl
  | .elem t a c, h => by
    simp only [nodeScriptStyleFree, Bool.and_eq_true, Bool.not_eq_true'] at h
    show (if (t == "script" || t == "style") = true then none else
      some (HtmlNode.elem t a (decomposeScriptStyleForest c))) = some (.elem t a c)
    rw [if_neg (by rw [h.1]; exact Bool.false_ne_true), decomposeForest_of_free c h.2]
/-- Decomposition does not change a forest that is already free of script
and style elements. -/
theorem decomposeForest_of_free :
    ∀ f : HtmlForest, forestScriptStyleFree f = true → decomposeScriptStyleForest f = f
  | .nil, _ => rfl
  | .cons n rest, h => by
    simp only [forestScriptStyleFree, Bool.and_eq_true] at h
    simp only [decomposeScriptStyleForest, decomposeNode_of_free n h.1,
      decomposeForest_of_free rest h.2]
end

/-- The document of the Hello World scenario: a main element containing
the text with three inner spaces and a script element. -/
def helloWorldDoc : HtmlForest :=
  .cons (.elem "html" [] (.cons (.elem "body" []
    (.cons (.elem "main" []
      (.cons (.text "Hello   World")
        (.cons (.elem "script" [] (.cons (.text "alert(1)") .nil)) .nil))) .nil)) .nil)) .nil

/-- A document whose main element's text contains a tab between two
words. -/
def tabMainDoc : HtmlForest :=
  .cons (.elem "html" [] (.cons (.elem "body" []
    (.cons (.elem "main" [] (.cons (.text "a\tb") .nil)) .nil)) .nil)) .nil

/-- Counterexample to C4 as stated: a tab, a whitespace run inside a line,
survives the extraction unchanged instead of being collapsed to a single
space. -/
theorem whitespace_run_counterexample :
    fetchSinglePageText tabMainDoc = "a\tb" ∧
    '\t' ∈ (fetchSinglePageText tabMainDoc).data ∧
    fetchSinglePageText tabMainDoc ≠ "a b" :=
  ⟨by decide, by decide, by decide⟩

/-- The head of a dropWhile result does not satisfy the predicate. -/
theorem head?_dropWhile_not (p : Char → Bool) :
    ∀ (l : List Char) (c : Char), (l.dropWhile p).head? = some c → p c = false := by
  intro l
  induction l with
  | nil => intro c h; cases h
  | cons a t ih =>
    intro c h
    rw [List.dropWhile_cons] at h
    by_cases hp : p a = true
    · rw [if_pos hp] at h; exact ih c h
    · rw [if_neg hp] at h
      cases Option.some.inj h
      exact Bool.eq_false_iff.mpr hp

/-- The character list of a stripped string. -/
theorem pyStrip_data (s : String) :
    (pyStrip s).data =
      ((s.data.dropWhile isPyWs).reverse.dropWhile isPyWs).reverse := rfl

/-- A stripped string does not end in whitespace. -/
theorem pyStrip_getLast_not_ws (s : String) (c : Char)
    (h : (pyStrip s).data.getLast? = some c) : isPyWs c = false := by
  rw [pyStrip_data, List.getLast?_reverse] at h
  exact head?_dropWhile_not isPyWs _ c h

/-- A stripped string does not start with whitespace. -/
theorem pyStrip_head_not_ws (s : String) (c : Char)
    (h : (pyStrip s).data.head? = some c) : isPyWs c = false := by
  rw [pyStrip_data, List.head?_reverse] at h
  have hne : (s.data.dropWhile isPyWs).reverse.dropWhile isPyWs ≠ [] := by
    intro hB
    rw [hB] at h
    cases h
  obtain ⟨t, ht⟩ := List.dropWhile_suffix (l := (s.data.dropWhile isPyWs).reverse) isPyWs
  have h2 : ((s.data.dropWhile isPyWs).reverse).getLast? = some c := by
    rw [← ht, List.getLast?_append_of_ne_nil t hne]
    exact h
  rw [List.getLast?_reverse] at h2
  exact head?_dropWhile_not isPyWs _ c h2

/-- Stripping introduces no new characters. -/
theorem mem_pyStrip (s : String) (c : Char) (h : c ∈ (pyStrip s).data) : c ∈ s.data := by
  rw [pyStrip_data, List.mem_reverse] at h
  have h2 : c ∈ (s.data.dropWhile isPyWs).reverse :=
    List.Sublist.mem h (List.dropWhile_suffix isPyWs).sublist
  rw [List.mem_reverse] at h2
  exact List.Sublist.mem h2 (List.dropWhile_suffix isPyWs).sublist

/-- No pair of adjacent space characters; the collapse guarantee of the
normalization is stated as the chain of this relation. -/
def notTwoSpaces (a b : Char) : Prop := ¬(a = ' ' ∧ b = ' ')

/-- The no-adjacent-spaces relation is symmetric. -/
theorem notTwoSpaces_symm (a b : Char) (h : notTwoSpaces a b) : notTwoSpaces b a :=
  fun hab => h ⟨hab.2, hab.1⟩

/-- Stripping preserves the absence of adjacent double spaces. -/
theorem chain_pyStrip (s : String) (h : List.Chain' notTwoSpaces s.data) :
    List.Chain' notTwoSpaces (pyStrip s).data := by
  rw [pyStrip_data]
  have hA : List.Chain' notTwoSpaces (s.data.dropWhile isPyWs) :=
    h.suffix (List.dropWhile_suffix isPyWs)
  have hA' : List.Chain' notTwoSpaces (s.data.dropWhile isPyWs).reverse :=
    List.chain'_reverse.mpr (hA.imp fun a b hab => notTwoSpaces_symm a b hab)
  have hB : List.Chain' notTwoSpaces
      ((s.data.dropWhile isPyWs).reverse.dropWhile isPyWs) :=
    hA'.suffix (List.dropWhile_suffix isPyWs)
  exact List.chain'_reverse.mpr (hB.imp fun a b hab => notTwoSpaces_symm a b hab)

/-- Fragments produced by the double-space splitter contain no two
adjacent spaces, given the accumulator invariant: the accumulated
characters form such a chain, and when the accumulator's most recent
character is a space the input does not start with one. -/
theorem splitTwoSpacesAux_chain :
    ∀ l acc : List Char,
      List.Chain' notTwoSpaces acc.reverse →
      (acc.head? = some ' ' → l.head? ≠ some ' ') →
      ∀ s ∈ pySplitTwoSpacesAux l acc, List.Chain' notTwoSpaces s.data := by
  intro l acc
  induction l, acc using pySplitTwoSpacesAux.induct with
  | case1 acc =>
    intro hacc _ s hs
    simp only [pySplitTwoSpacesAux, List.mem_singleton] at hs
    subst hs
    exact hacc
  | case2 rest acc ih =>
    intro hacc _ s hs
    simp only [pySplitTwoSpacesAux] at hs
    rcases List.mem_cons.mp hs with rfl | hs'
    · exact hacc
    · exact ih List.chain'_nil (fun hc => by cases hc) s hs'
  | case3 c rest acc hno ih =>
    intro hacc hhead s hs
    rw [pySplitTwoSpacesAux.eq_3 acc c rest hno] at hs
    refine ih ?_ ?_ s hs
    · rw [List.reverse_cons]
      refine List.Chain'.append hacc (List.chain'_singleton c) ?_
      intro x hx y hy
      simp only [List.head?_cons, Option.mem_def, Option.some.injEq] at hy
      subst hy
      rw [Option.mem_def, List.getLast?_reverse] at hx
      intro hxc
      exact (hhead (by rw [hx, hxc.1]))
        (by show (c :: rest).head? = some ' '; rw [List.head?_cons, hxc.2])
    · intro hc
      have hcsp : c = ' ' := by
        rw [List.head?_cons] at hc
        exact Option.some.inj hc
      intro hr
      cases rest with
      | nil => cases hr
      | cons r rest' =>
        have hrsp : r = ' ' := by
          rw [List.head?_cons] at hr
          exact Option.some.inj hr
        exact hno rest' hcsp (by rw [hrsp])

/-- Fragments produced by the double-space splitter draw their characters
from the accumulator and the input. -/
theorem splitTwoSpacesAux_mem :
    ∀ l acc : List Char, ∀ s ∈ pySplitTwoSpacesAux l acc, ∀ c ∈ s.data, c ∈ acc ∨ c ∈ l := by
  intro l acc
  induction l, acc using pySplitTwoSpacesAux.induct with
  | case1 acc =>
    intro s hs c hc
    simp only [pySplitTwoSpacesAux, List.mem_singleton] at hs
    subst hs
    exact Or.inl (List.mem_reverse.mp hc)
  | case2 rest acc ih =>
    intro s hs c hc
    simp only [pySplitTwoSpacesAux] at hs
    rcases List.mem_cons.mp hs with rfl | hs'
    · exact Or.inl (List.mem_reverse.mp hc)
    · rcases ih s hs' c hc with h | h
      · cases h
      · exact Or.inr (by simp [h])
  | case3 c0 rest acc hno ih =>
    intro s hs c hc
    rw [pySplitTwoSpacesAux.eq_3 acc c0 rest hno] at hs
    rcases ih s hs c hc with h | h
    · rcases List.mem_cons.mp h with rfl | h'
      · exact Or.inr (by simp)
      · exact Or.inl h'
    · exact Or.inr (by simp [h])

set_option maxHeartbeats 1000000 in
/-- Lines produced by the line splitter contain no line-break characters,
given the accumulator contains none. -/
theorem splitlinesAux_no_break :
    ∀ l acc : List Char, (∀ c ∈ acc, isPyLineBreak c = false) →
      ∀ s ∈ pySplitlinesAux l acc, ∀ c ∈ s.data, isPyLineBreak c = false := by
  intro l acc
  induction l, acc using pySplitlinesAux.induct with
  | case1 acc he =>
    intro hacc s hs c hc
    rw [pySplitlinesAux, if_pos he] at hs
    cases hs
  | case2 acc he =>
    intro hacc s hs c hc
    rw [pySplitlinesAux, if_neg he, List.mem_singleton] at hs
    subst hs
    exact hacc c (List.mem_reverse.mp hc)
  | case3 rest acc ih =>
    intro hacc s hs c hc
    simp only [pySplitlinesAux] at hs
    rcases List.mem_cons.mp hs with rfl | hs'
    · exact hacc c (List.mem_reverse.mp hc)
    · exact ih (fun c' hcm => by cases hcm) s hs' c hc
  | case4 c0 rest acc hno hbrk ih =>
    intro hacc s hs c hc
    rw [pySplitlinesAux.eq_3 acc c0 rest hno, if_pos hbrk] at hs
    rcases List.mem_cons.mp hs with rfl | hs'
    · exact hacc c (List.mem_reverse.mp hc)
    · exact ih (fun c' hcm => by cases hcm) s hs' c hc
  | case5 c0 rest acc hno hbrk ih =>
    intro hacc s hs c hc
    rw [pySplitlinesAux.eq_3 acc c0 rest hno, if_neg hbrk] at hs
    refine ih ?_ s hs c hc
    intro c' hcm
    rcases List.mem_cons.mp hcm with rfl | h'
    · exact Bool.eq_false_iff.mpr hbrk
    · exact hacc c' h'
/-- The join of a list headed by a non-empty string starts with that
string's first character. -/
theorem pyJoinSp_head (p : String) (ps : List String) (hp : p.data ≠ []) :
    (pyJoinSp (p :: ps)).data.head? = p.data.head? := by
  cases ps with
  | nil => rfl
  | cons q qs =>
    show ((p ++ " ") ++ pyJoinSp (q :: qs)).data.head? = _
    rw [String.data_append, String.data_append]
    cases hd : p.data with
    | nil => exact absurd hd hp
    | cons a t => simp [hd]

/-- Joining non-empty parts with single spaces yields no two adjacent
spaces, when each part has none and no space at either edge. -/
theorem pyJoinSp_chain :
    ∀ parts : List String,
      (∀ p ∈ parts, p.data ≠ [] ∧ List.Chain' notTwoSpaces p.data ∧
        p.data.head? ≠ some ' ' ∧ p.data.getLast? ≠ some ' ') →
      List.Chain' notTwoSpaces (pyJoinSp parts).data := by
  intro parts
  induction parts with
  | nil => intro _; exact List.chain'_nil
  | cons p ps ih =>
    intro h
    cases ps with
    | nil => exact (h p (by simp)).2.1
    | cons q qs =>
      obtain ⟨hpne, hpchain, hphead, hplast⟩ := h p (by simp)
      obtain ⟨hqne, hqchain, hqhead, hqlast⟩ := h q (by simp)
      have hrest : List.Chain' notTwoSpaces (pyJoinSp (q :: qs)).data :=
        ih fun r hr => h r (List.mem_cons_of_mem p hr)
      show List.Chain' notTwoSpaces ((p ++ " ") ++ pyJoinSp (q :: qs)).data
      rw [String.data_append, String.data_append,
        show (" " : String).data = [' '] from rfl]
      refine List.Chain'.append (List.Chain'.append hpchain
        (List.chain'_singleton ' ') ?_) hrest ?_
      · intro x hx y hy
        rw [Option.mem_def] at hx
        intro hxy
        exact hplast (by rw [hx, hxy.1])
      · intro x hx y hy
        rw [Option.mem_def, pyJoinSp_head q qs hqne] at hy
        intro hxy
        exact hqhead (by rw [hy, hxy.2])

/-- Characters of a join come from the parts or are the separator. -/
theorem pyJoinSp_mem :
    ∀ (parts : List String) (c : Char), c ∈ (pyJoinSp parts).data →
      c = ' ' ∨ ∃ p ∈ parts, c ∈ p.data := by
  intro parts
  induction parts with
  | nil => intro c hc; cases hc
  | cons p ps ih =>
    intro c hc
    cases ps with
    | nil => exact Or.inr ⟨p, List.mem_cons_self p [], hc⟩
    | cons q qs =>
      rw [show pyJoinSp (p :: q :: qs) = (p ++ " ") ++ pyJoinSp (q :: qs) from rfl,
        String.data_append, String.data_append,
        show (" " : String).data = [' '] from rfl] at hc
      rcases List.mem_append.mp hc with h1 | h2
      · rcases List.mem_append.mp h1 with hp | hsp
        · exact Or.inr ⟨p, List.mem_cons_self p _, hp⟩
        · exact Or.inl (List.mem_singleton.mp hsp)
      · rcases ih c h2 with h | ⟨r, hr, hcr⟩
        · exact Or.inl h
        · exact Or.inr ⟨r, List.mem_cons_of_mem p hr, hcr⟩

/-- The parts joined by normalizeWhitespace: the stripped double-space
fragments of the stripped lines, the empty ones dropped. -/
theorem normalizeWhitespace_eq (s : String) :
    normalizeWhitespace s =
      pyJoinSp (((((pySplitlines s).map pyStrip).map
        fun l => (pySplitTwoSpaces l).map pyStrip).flatten).filter fun c => c ≠ "") :=
  rfl

/-- Every part joined by normalizeWhitespace is non-empty, has no two
adjacent spaces, no space at either edge, and no line-break character. -/
theorem normalize_part_props (s p : String)
    (hp : p ∈ ((((pySplitlines s).map pyStrip).map
        fun l => (pySplitTwoSpaces l).map pyStrip).flatten).filter fun c => c ≠ "") :
    p.data ≠ [] ∧ List.Chain' notTwoSpaces p.data ∧
    p.data.head? ≠ some ' ' ∧ p.data.getLast? ≠ some ' ' ∧
    ∀ c ∈ p.data, isPyLineBreak c = false := by
  rw [List.mem_filter] at hp
  obtain ⟨hmem, hnottrivial⟩ := hp
  have hne' : p ≠ "" := by simpa using hnottrivial
  rw [List.mem_flatten] at hmem
  obtain ⟨sub, hsub, hpsub⟩ := hmem
  rw [List.mem_map] at hsub
  obtain ⟨line, hline, rfl⟩ := hsub
  rw [List.mem_map] at hpsub
  obtain ⟨frag, hfrag, rfl⟩ := hpsub
  rw [List.mem_map] at hline
  obtain ⟨rawline, hrawline, rfl⟩ := hline
  rw [show pySplitTwoSpaces (pyStrip rawline) =
    pySplitTwoSpacesAux (pyStrip rawline).data [] from rfl] at hfrag
  rw [show pySplitlines s = pySplitlinesAux s.data [] from rfl] at hrawline
  refine ⟨?_, ?_, ?_, ?_, ?_⟩
  · intro hd
    exact hne' (String.ext (by rw [hd]))
  · exact chain_pyStrip frag
      (splitTwoSpacesAux_chain (pyStrip rawline).data [] List.chain'_nil
        (fun hc => by cases hc) frag hfrag)
  · intro hh
    exact absurd (pyStrip_head_not_ws frag ' ' hh) (by decide)
  · intro hh
    exact absurd (pyStrip_getLast_not_ws frag ' ' hh) (by decide)
  · intro c hcp
    have hc1 : c ∈ frag.data := mem_pyStrip frag c hcp
    rcases splitTwoSpacesAux_mem (pyStrip rawline).data [] frag hfrag c hc1 with h | h
    · cases h
    · exact splitlinesAux_no_break s.data [] (fun c' hcm => by cases hcm)
        rawline hrawline c (mem_pyStrip rawline c h)

/-- Normalized text contains no two adjacent spaces. -/
theorem normalizeWhitespace_chain (s : String) :
    List.Chain' notTwoSpaces (normalizeWhitespace s).data := by
  rw [normalizeWhitespace_eq]
  refine pyJoinSp_chain _ fun p hp => ?_
  obtain ⟨h1, h2, h3, h4, _⟩ := normalize_part_props s p hp
  exact ⟨h1, h2, h3, h4⟩

/-- Normalized text contains no line-break character. -/
theorem normalizeWhitespace_no_break (s : String) :
    ∀ c ∈ (normalizeWhitespace s).data, isPyLineBreak c = false := by
  intro c hc
  rw [normalizeWhitespace_eq] at hc
  rcases pyJoinSp_mem _ c hc with rfl | ⟨p, hp, hcp⟩
  · rfl
  · exact (normalize_part_props s p hp).2.2.2.2 c hcp

/-- Truncation preserves the absence of adjacent double spaces. -/
theorem chain_truncateContent (s : String) (h : List.Chain' notTwoSpaces s.data) :
    List.Chain' notTwoSpaces (truncateContent s).data := by
  rw [truncateContent]
  split
  · rw [String.data_append]
    refine List.Chain'.append ?_ ?_ ?_
    · show List.Chain' notTwoSpaces (s.data.take 4096)
      exact h.take 4096
    · show List.Chain' notTwoSpaces ['.', '.', '.']
      refine List.chain'_cons.mpr ⟨fun hx => absurd hx.1 (by decide),
        List.chain'_cons.mpr ⟨fun hx => absurd hx.1 (by decide),
          List.chain'_singleton '.'⟩⟩
    · intro x hx y hy
      have hy' : y = '.' := by
        rw [Option.mem_def] at hy
        exact (Option.some.inj hy).symm
      intro hxy
      exact absurd (hy' ▸ hxy.2) (by decide)
  · exact h

/-- Characters surviving truncation come from the text or the marker. -/
theorem mem_truncateContent (s : String) (c : Char)
    (hc : c ∈ (truncateContent s).data) : c ∈ s.data ∨ c = '.' := by
  rw [truncateContent] at hc
  split at hc
  · rw [String.data_append] at hc
    rcases List.mem_append.mp hc with h1 | h2
    · left
      have h1' : c ∈ s.data.take 4096 := h1
      exact List.Sublist.mem h1' (List.take_sublist 4096 s.data)
    · right
      have h2' : c ∈ ['.', '.', '.'] := h2
      simpa using h2'
  · left; exact hc

/-- The extracted page text contains no two adjacent spaces. -/
theorem fetchSinglePage_chain (doc : HtmlForest) :
    List.Chain' notTwoSpaces (fetchSinglePageText doc).data := by
  show List.Chain' notTwoSpaces (truncateContent (normalizeWhitespace
    (extractRawText (decomposeScriptStyleForest doc)))).data
  exact chain_truncateContent _ (normalizeWhitespace_chain _)

/-- The extracted page text contains no line-break character. -/
theorem fetchSinglePage_no_break (doc : HtmlForest) :
    ∀ c ∈ (fetchSinglePageText doc).data, isPyLineBreak c = false := by
  intro c hc
  have hc' : c ∈ (truncateContent (normalizeWhitespace
      (extractRawText (decomposeScriptStyleForest doc)))).data := hc
  rcases mem_truncateContent _ c hc' with h | rfl
  · exact normalizeWhitespace_no_break _ c h
  · rfl

/-- Extraction from the already-decomposed tree changes nothing: the page
text is a function of the script-free tree alone. -/
theorem fetchSinglePageText_decomposed (doc : HtmlForest) :
    fetchSinglePageText (decomposeScriptStyleForest doc) = fetchSinglePageText doc := by
  show truncateContent (normalizeWhitespace (extractRawText
    (decomposeScriptStyleForest (decomposeScriptStyleForest doc)))) = _
  rw [decomposeForest_of_free _ (decomposeForest_scriptStyleFree doc)]
  rfl

/-- C4 (amended): script and style subtrees are removed before extraction
and the page text depends only on the script-free tree, so their text
never appears; normalization leaves no two adjacent spaces and no
line-break characters — whitespace characters inside a line other than
spaces, such as tab, are preserved rather than collapsed — and the Hello
World scenario extracts exactly Hello World. -/
theorem script_removal_and_whitespace_collapse :
    (∀ doc : HtmlForest, forestScriptStyleFree (decomposeScriptStyleForest doc) = true) ∧
    (∀ doc : HtmlForest,
      fetchSinglePageText (decomposeScriptStyleForest doc) = fetchSinglePageText doc) ∧
    (∀ s : String, List.Chain' notTwoSpaces (normalizeWhitespace s).data ∧
      ∀ c ∈ (normalizeWhitespace s).data, isPyLineBreak c = false) ∧
    (∀ doc : HtmlForest, List.Chain' notTwoSpaces (fetchSinglePageText doc).data ∧
      ∀ c ∈ (fetchSinglePageText doc).data, isPyLineBreak c = false) ∧
    fetchSinglePageText helloWorldDoc = "Hello World" :=
  ⟨decomposeForest_scriptStyleFree, fetchSinglePageText_decomposed,
   fun s => ⟨normalizeWhitespace_chain s, normalizeWhitespace_no_break s⟩,
   fun doc => ⟨fetchSinglePage_chain doc, fetchSinglePage_no_break doc⟩,
   by decide⟩

end InternetSearch
